import Mathlib

/-!
Verification development for the electric-vehicle dashboard script (`app.py`).

The script loads a CSV into a pandas dataframe and derives four chart-ready
sequences from it:
* lines 30-36: trends by model year (equality filters on make / vehicle type,
  then `groupby('Model Year').size()`, whose group keys come out ascending);
* lines 53-58: electric-range histogram (equality filter on vehicle type, then
  binning delegated to the charting stack with `alt.Bin(maxbins=20)`);
* lines 80-88: county distribution (a derived `Adoption Range` column is written
  onto the dataframe via `pd.cut`, rows are filtered by the selected bucket, and
  `value_counts` groups by county);
* line 112: top manufacturers by mean electric range (`groupby('Make').mean()`,
  sort descending, `head(10)`).

The embedding below models the dataframe as a list of rows plus the optional
derived column, keeps pandas' ascending group keys and `pd.cut` semantics
(`bins=[0,50,200,500,1000,max_county_count]`, `include_lowest=True`, right-closed
intervals), and models `pd.cut`'s failure mode: the bin list must be strictly
increasing, which fails whenever the data-derived top edge `max_county_count`
is `NaN` (empty data) or `≤ 1000`.  Rational numbers that occur (mean ranges)
are modelled exactly with `ℚ`; the histogram's library binning works on exact
thousandths of a mile so that every quantity stays in `ℕ`.
-/

/-- One row of the loaded dataset (`pd.read_csv`, line 17): the five columns the
script reads are `Make`, `Model Year`, `Electric Vehicle Type`, `Electric Range`
and `County`. -/
structure VehicleRecord where
  make : String
  modelYear : Int
  vehicleType : String
  electricRange : Nat
  county : String
  deriving DecidableEq

/-- The working dataframe: the loaded rows plus the derived `Adoption Range`
column (absent right after loading, written by line 82; `none` entries model
`NaN` labels of `pd.cut`). -/
structure TableState where
  rows : List VehicleRecord
  adoptionRange : Option (List (Option String))
  deriving DecidableEq

/-- Insert a key into a strictly ascending list, skipping an already-present
key; building block for the sorted distinct group keys of pandas `groupby`. -/
def insertSortedNoDup (x : Int) : List Int → List Int
  | [] => [x]
  | y :: ys =>
    if x < y then x :: y :: ys
    else if x = y then y :: ys
    else y :: insertSortedNoDup x ys

/-- Distinct keys of a list in ascending order: the index that
`groupby('Model Year').size()` produces on line 36. -/
def sortedDistinct (l : List Int) : List Int := l.foldr insertSortedNoDup []

theorem mem_insertSortedNoDup (x a : Int) (l : List Int) :
    a ∈ insertSortedNoDup x l ↔ a = x ∨ a ∈ l := by
  induction l with
  | nil => simp [insertSortedNoDup]
  | cons y ys ih =>
    simp only [insertSortedNoDup]
    by_cases h1 : x < y
    · simp [h1, List.mem_cons]
    · by_cases h2 : x = y
      · simp [h1, h2, List.mem_cons]
      · simp [h1, h2, List.mem_cons, ih]
        tauto

theorem sorted_insertSortedNoDup (x : Int) (l : List Int) (h : l.Sorted (· < ·)) :
    (insertSortedNoDup x l).Sorted (· < ·) := by
  induction l with
  | nil => simp [insertSortedNoDup]
  | cons y ys ih =>
    rw [List.sorted_cons] at h
    by_cases h1 : x < y
    · simp only [insertSortedNoDup, if_pos h1]
      rw [List.sorted_cons]
      refine ⟨?_, ?_⟩
      · intro b hb
        rcases List.mem_cons.mp hb with rfl | hb
        · exact h1
        · exact lt_trans h1 (h.1 b hb)
      · rw [List.sorted_cons]
        exact h
    · by_cases h2 : x = y
      · simp only [insertSortedNoDup, if_neg h1, if_pos h2]
        rw [List.sorted_cons]
        exact h
      · simp only [insertSortedNoDup, if_neg h1, if_neg h2]
        rw [List.sorted_cons]
        refine ⟨?_, ih h.2⟩
        intro b hb
        rcases (mem_insertSortedNoDup x b ys).mp hb with rfl | hb
        · exact lt_of_le_of_ne (le_of_not_lt h1) (Ne.symm h2)
        · exact h.1 b hb

theorem sortedDistinct_sorted (l : List Int) : (sortedDistinct l).Sorted (· < ·) := by
  induction l with
  | nil => simp [sortedDistinct]
  | cons x xs ih => exact sorted_insertSortedNoDup x _ ih

theorem mem_sortedDistinct (l : List Int) (a : Int) : a ∈ sortedDistinct l ↔ a ∈ l := by
  induction l with
  | nil => simp [sortedDistinct]
  | cons x xs ih =>
    show a ∈ insertSortedNoDup x (sortedDistinct xs) ↔ _
    rw [mem_insertSortedNoDup, ih]
    simp [List.mem_cons]

/-- Lines 30-34: start from the full table and apply the equality filters for
the selected manufacturer and vehicle type, each skipped on `"All"`. -/
def filtered_data (data : List VehicleRecord) (selected_make selected_type : String) :
    List VehicleRecord :=
  let d1 := if selected_make ≠ "All" then data.filter (fun r => r.make == selected_make) else data
  if selected_type ≠ "All" then d1.filter (fun r => r.vehicleType == selected_type) else d1

/-- Line 36: `filtered_data.groupby('Model Year').size()` — the distinct model
years of the filtered rows in ascending order, each with its row count. -/
def ev_count_by_year (data : List VehicleRecord) (selected_make selected_type : String) :
    List (Int × Nat) :=
  let years := (filtered_data data selected_make selected_type).map (fun r => r.modelYear)
  (sortedDistinct years).map (fun y => (y, years.count y))

/-- Combined row predicate equivalent to the two sequential filters of
lines 31-34. -/
def trendsPred (selected_make selected_type : String) (r : VehicleRecord) : Bool :=
  ((selected_make == "All") || (r.make == selected_make)) &&
  ((selected_type == "All") || (r.vehicleType == selected_type))

theorem filtered_data_eq_filter (data : List VehicleRecord) (m t : String) :
    filtered_data data m t = data.filter (trendsPred m t) := by
  have em : ∀ s : String, s ≠ "All" → (s == "All") = false :=
    fun s hs => beq_eq_false_iff_ne.mpr hs
  unfold filtered_data trendsPred
  by_cases hm : m = "All" <;> by_cases ht : t = "All"
  · subst hm; subst ht
    simp
  · subst hm
    simp [ht, em t ht]
  · subst ht
    simp [hm, em m hm]
  · simp only [ne_eq, hm, ht, not_false_eq_true, if_true, List.filter_filter,
      em m hm, em t ht, Bool.false_or]
    apply List.filter_congr
    intro r _
    rw [Bool.and_comm]

/-- Row count of a county: the entry of `data['County'].value_counts()` that
`data['County'].map(...)` looks up on line 82. -/
def countyCount (rows : List VehicleRecord) (c : String) : Nat :=
  rows.countP (fun r => r.county == c)

/-- Largest element of a list of naturals, `none` on the empty list (pandas
`.max()` yields `NaN` there). -/
def listMaximum : List Nat → Option Nat
  | [] => none
  | x :: xs => some ((listMaximum xs).elim x (Nat.max x))

/-- Line 80's data-derived top bin edge `data['County'].value_counts().max()`:
the largest county count (`NaN`, i.e. `none`, on an empty table). -/
def maxCountyCount (rows : List VehicleRecord) : Option Nat :=
  listMaximum (rows.map (fun r => countyCount rows r.county))

/-- Labelling of one count by
`pd.cut(·, bins=[0,50,200,500,1000,M], labels, include_lowest=True)`:
right-closed intervals `[0,50], (50,200], (200,500], (500,1000], (1000,M]`,
`NaN` (`none`) outside. -/
def cutLabel (M c : Nat) : Option String :=
  if c ≤ 50 then some "0-50"
  else if c ≤ 200 then some "51-200"
  else if c ≤ 500 then some "201-500"
  else if c ≤ 1000 then some "501-1000"
  else if c ≤ M then some "1000+"
  else none

/-- Lines 80-82: compute the `Adoption Range` column.  `pd.cut` validates that
its bin list increases strictly, so the call raises `ValueError` whenever the
data-derived top edge is `NaN` (empty table) or `≤ 1000`. -/
def adoption_range_column (rows : List VehicleRecord) : Except String (List (Option String)) :=
  match maxCountyCount rows with
  | none => .error "bins must increase monotonically"
  | some M =>
    if 1000 < M then .ok (rows.map (fun r => cutLabel M (countyCount rows r.county)))
    else .error "bins must increase monotonically"

/-- Line 85: `data if selected_range == "All" else data[data['Adoption Range'] == selected_range]`. -/
def filtered_county_data (rows : List VehicleRecord) (selected_range : String) :
    Except String (List VehicleRecord) :=
  (adoption_range_column rows).map (fun labels =>
    if selected_range = "All" then rows
    else ((rows.zip labels).filter (fun p => p.2 == some selected_range)).map Prod.fst)

/-- pandas `Series.value_counts()`: one entry per distinct value with its
multiplicity, ordered by descending count (pandas leaves the tie order
unspecified; the model uses a stable sort). -/
def value_counts (l : List String) : List (String × Nat) :=
  (l.dedup.map (fun c => (c, l.count c))).insertionSort (fun a b => b.2 ≤ a.2)

/-- Lines 87-88: `filtered_county_data['County'].value_counts()`. -/
def county_counts (rows : List VehicleRecord) (selected_range : String) :
    Except String (List (String × Nat)) :=
  (filtered_county_data rows selected_range).map
    (fun fcd => value_counts (fcd.map (fun r => r.county)))

/-- The county-distribution derivation acting on the working dataframe:
line 82 writes the derived column onto the table (recorded in the returned
state), lines 85-88 produce the chart data. -/
def countyDistributionRun (s : TableState) (selected_range : String) :
    Except String (TableState × List (String × Nat)) :=
  (adoption_range_column s.rows).bind (fun labels =>
    (county_counts s.rows selected_range).map (fun out => (⟨s.rows, some labels⟩, out)))

theorem listMaximum_eq_none (l : List Nat) : listMaximum l = none ↔ l = [] := by
  cases l <;> simp [listMaximum]

theorem listMaximum_le (l : List Nat) (M x : Nat) (hM : listMaximum l = some M)
    (hx : x ∈ l) : x ≤ M := by
  induction l generalizing M with
  | nil => cases hx
  | cons a as ih =>
    rcases List.mem_cons.mp hx with rfl | hx
    · cases h : listMaximum as with
      | none =>
        simp [listMaximum, h, Option.elim] at hM
        exact hM.le
      | some m =>
        simp [listMaximum, h, Option.elim] at hM
        rw [← hM]
        exact Nat.le_max_left x m
    · cases h : listMaximum as with
      | none =>
        rw [listMaximum_eq_none] at h
        subst h
        cases hx
      | some m =>
        have hxm := ih m h hx
        simp [listMaximum, h, Option.elim] at hM
        rw [← hM]
        exact le_trans hxm (Nat.le_max_right a m)

theorem countP_replicate {α : Type} (n : Nat) (a : α) (p : α → Bool) :
    (List.replicate n a).countP p = if p a then n else 0 := by
  induction n with
  | zero => simp
  | succ k ih =>
    simp [List.replicate_succ, List.countP_cons, ih]
    cases p a <;> simp

theorem listMaximum_replicate (n a : Nat) : listMaximum (List.replicate (n + 1) a) = some a := by
  induction n with
  | zero => rfl
  | succ k ih =>
    rw [List.replicate_succ]
    show some ((listMaximum (List.replicate (k + 1) a)).elim a (Nat.max a)) = some a
    rw [ih]
    simp [Option.elim]

theorem mem_value_counts (l : List String) (p : String × Nat) (hp : p ∈ value_counts l) :
    p.1 ∈ l ∧ p.2 = l.count p.1 := by
  have hperm := List.perm_insertionSort (fun a b : String × Nat => b.2 ≤ a.2)
    (l.dedup.map (fun c => (c, l.count c)))
  rw [value_counts] at hp
  have hp2 : p ∈ l.dedup.map (fun c => (c, l.count c)) := hperm.mem_iff.mp hp
  obtain ⟨c, hc, hceq⟩ := List.mem_map.mp hp2
  cases hceq
  exact ⟨List.mem_dedup.mp hc, rfl⟩

theorem countyDistributionRun_adoptionRange (s : TableState) (r : String) :
    (countyDistributionRun s r).map (fun p => p.1.adoptionRange) =
      (adoption_range_column s.rows).map (fun labels => some labels) := by
  unfold countyDistributionRun county_counts filtered_county_data
  cases h : adoption_range_column s.rows <;> simp [h, Except.map, Except.bind]

/-- Lines 53-55: the histogram's own filter — vehicle type only (the selected
manufacturer is not consulted). -/
def range_filtered_data (rows : List VehicleRecord) (selected_type : String) :
    List VehicleRecord :=
  if selected_type ≠ "All" then rows.filter (fun r => r.vehicleType == selected_type) else rows

/-- Smallest element of a list of naturals, `none` on the empty list. -/
def listMinimum : List Nat → Option Nat
  | [] => none
  | x :: xs => some ((listMinimum xs).elim x (Nat.min x))

/-- Helper computing `floor(log_100 m)` with explicit fuel (structural, so the
kernel can evaluate it; fuel `n` always suffices for `m = 10·n²`). -/
def log100Aux : Nat → Nat → Nat
  | 0, _ => 0
  | fuel + 1, m => if m < 100 then 0 else log100Aux fuel (m / 100) + 1

/-- `Math.round(log10 n)` for a positive natural: the least `k` with
`n² < 10^(2k+1)`, i.e. `floor(log_100 (10·n²))`. -/
def roundLog10 (n : Nat) : Nat := log100Aux n (10 * n * n)

/-- The `while (ceil(span/step) > maxbins) step *= base` loop of the charting
library's bin routine (`maxbins = 20`, `base = 10`), with steps measured in
thousandths; the fuel bounds the iterations and `span` iterations always
suffice. -/
def growStep (span : Nat) : Nat → Nat → Nat
  | 0, stepM => stepM
  | fuel + 1, stepM =>
    if 20 < (1000 * span + stepM - 1) / stepM then growStep span fuel (stepM * 10)
    else stepM

/-- The `divide = [5, 2]` refinement of the bin routine: try `step/5`, then
`step/2`, keeping a candidate `v` whenever `span / v ≤ maxbins`.  Comparisons
are exact (cross-multiplied); the divisions are exact on the powers of ten the
loop receives. -/
def refineStep (span stepM : Nat) : Nat :=
  if 1000 * span * 5 ≤ 20 * stepM then
    (if 1000 * span * 2 ≤ 20 * (stepM / 5) then stepM / 5 / 2 else stepM / 5)
  else
    (if 1000 * span * 2 ≤ 20 * stepM then stepM / 2 else stepM)

/-- The `span` of the bin routine: `(stop - start) || Math.abs(start) || 1` on
the extent `[lo, hi]`. -/
def binSpan (lo hi : Nat) : Nat :=
  if hi - lo ≠ 0 then hi - lo else if lo ≠ 0 then lo else 1

/-- The step the charting stack's bin routine picks for `maxbins = 20`,
`base = 10`, `divide = [5, 2]`, in thousandths: `level` is
`ceil(log10 20) = 2`, so the initial step is `10^(round(log10 span) - 2)`
miles, i.e. `10^(round(log10 span) + 1)` thousandths; then the grow loop and
the divide refinement run.  Every intermediate step is `10^k`, `2·10^k` or
`5·10^k` thousandths, so the exact thousandth representation is closed under
all of it. -/
def binStepM (span : Nat) : Nat :=
  refineStep span (growStep span span (10 ^ (roundLog10 span + 1)))

/-- With `nice = true` the bins start at `step · floor(lo / step)`
(thousandths). -/
def binStart (lo hi : Nat) : Nat :=
  1000 * lo / binStepM (binSpan lo hi) * binStepM (binSpan lo hi)

/-- With `nice = true` the bins stop at `step · ceil(hi / step)`, bumped by one
step when that equals the start (thousandths). -/
def binStop (lo hi : Nat) : Nat :=
  (if (1000 * hi + binStepM (binSpan lo hi) - 1) / binStepM (binSpan lo hi) =
      1000 * lo / binStepM (binSpan lo hi)
   then 1000 * lo / binStepM (binSpan lo hi) + 1
   else (1000 * hi + binStepM (binSpan lo hi) - 1) / binStepM (binSpan lo hi)) *
    binStepM (binSpan lo hi)

/-- Number of equal-width bins between `binStart` and `binStop`. -/
def binCount (lo hi : Nat) : Nat :=
  (binStop lo hi - binStart lo hi) / binStepM (binSpan lo hi)

/-- The bins over extent `[lo, hi]` with each value counted into its bin
(the last bin also counts values equal to its upper edge). -/
def binsFor (vals : List Nat) (lo hi : Nat) : List (Nat × Nat × Nat) :=
  (List.range (binCount lo hi)).map (fun i =>
    (binStart lo hi + i * binStepM (binSpan lo hi),
     binStart lo hi + (i + 1) * binStepM (binSpan lo hi),
     vals.countP (fun v =>
       (decide (binStart lo hi + i * binStepM (binSpan lo hi) ≤ 1000 * v)) &&
       ((decide (1000 * v < binStart lo hi + (i + 1) * binStepM (binSpan lo hi))) ||
         ((i + 1 == binCount lo hi) &&
           (1000 * v == binStart lo hi + (i + 1) * binStepM (binSpan lo hi)))))))

/-- Lines 57-58 as compiled through the charting stack: filter by vehicle type,
bin `Electric Range` over the observed extent with `maxbins = 20`, count
values per bin.  Bin edges are in thousandths of a mile.  An empty selection
yields no bins. -/
def rangeHistogram (rows : List VehicleRecord) (selected_type : String) :
    List (Nat × Nat × Nat) :=
  let vals := (range_filtered_data rows selected_type).map (fun r => r.electricRange)
  match listMinimum vals, listMaximum vals with
  | some lo, some hi => binsFor vals lo hi
  | _, _ => []

/-- Line 112, the grouped mean: arithmetic mean of `Electric Range` over the
rows of one manufacturer (exact rational; pandas computes the same value in
floating point). -/
def meanRange (data : List VehicleRecord) (m : String) : ℚ :=
  let rows := data.filter (fun r => r.make == m)
  (rows.map (fun r => (r.electricRange : ℚ))).sum / (rows.length : ℚ)

/-- Line 112: `data.groupby('Make')['Electric Range'].mean()` then
`sort_values(ascending=False).head(10)` — one entry per distinct make, sorted
by descending mean range (stable in the model; pandas leaves exact-tie order
unspecified), truncated to ten entries. -/
def avg_range_by_make (data : List VehicleRecord) : List (String × ℚ) :=
  (((data.map (fun r => r.make)).dedup.map (fun m => (m, meanRange data m))).insertionSort
    (fun a b => b.2 ≤ a.2)).take 10

instance : IsTotal (String × ℚ) (fun a b => b.2 ≤ a.2) :=
  ⟨fun a b => le_total b.2 a.2⟩

instance : IsTrans (String × ℚ) (fun a b => b.2 ≤ a.2) :=
  ⟨fun _ _ _ h h' => le_trans h' h⟩

/-- Concrete sample row used by witnesses and counterexamples. -/
def king : VehicleRecord := ⟨"TESLA", 2020, "BEV", 300, "King"⟩

/-- Second concrete sample row (a different county and type). -/
def pierce : VehicleRecord := ⟨"NISSAN", 2018, "PHEV", 0, "Pierce"⟩

theorem growStep_pos (span fuel stepM : Nat) (h : 0 < stepM) : 0 < growStep span fuel stepM := by
  induction fuel generalizing stepM with
  | zero => simpa [growStep]
  | succ k ih =>
    unfold growStep
    split
    · exact ih _ (by omega)
    · exact h

theorem growStep_dvd (span fuel stepM : Nat) (h : 10 ∣ stepM) : 10 ∣ growStep span fuel stepM := by
  induction fuel generalizing stepM with
  | zero => simpa [growStep]
  | succ k ih =>
    unfold growStep
    split
    · exact ih _ (Dvd.dvd.mul_right h 10)
    · exact h

theorem refineStep_pos (span stepM : Nat) (hd : 10 ∣ stepM) (hp : 0 < stepM) :
    0 < refineStep span stepM := by
  obtain ⟨m, rfl⟩ := hd
  have hm : 0 < m := by omega
  unfold refineStep
  split
  · split <;> omega
  · split <;> omega

theorem binStepM_pos (span : Nat) : 0 < binStepM span := by
  unfold binStepM
  apply refineStep_pos
  · exact growStep_dvd _ _ _ (dvd_pow_self 10 (Nat.succ_ne_zero _))
  · exact growStep_pos _ _ _ (pow_pos (by omega) _)

theorem le_ceilDiv_mul (x s : Nat) (hs : 0 < s) : x ≤ (x + s - 1) / s * s := by
  have h1 := Nat.div_add_mod' (x + s - 1) s
  have h2 := Nat.mod_lt (x + s - 1) hs
  omega

theorem binStart_le (lo hi : Nat) : binStart lo hi ≤ 1000 * lo :=
  Nat.div_mul_le_self _ _

theorem le_binStop (lo hi : Nat) : 1000 * hi ≤ binStop lo hi := by
  have hs := binStepM_pos (binSpan lo hi)
  unfold binStop
  split
  · rename_i hcond
    have h1 := le_ceilDiv_mul (1000 * hi) (binStepM (binSpan lo hi)) hs
    rw [hcond] at h1
    have h2 : 1000 * lo / binStepM (binSpan lo hi) * binStepM (binSpan lo hi) ≤
        (1000 * lo / binStepM (binSpan lo hi) + 1) * binStepM (binSpan lo hi) := by
      rw [Nat.add_mul]
      omega
    exact le_trans h1 h2
  · exact le_ceilDiv_mul _ _ hs

theorem binCount_spec (lo hi : Nat) (h : lo ≤ hi) :
    binStart lo hi + binCount lo hi * binStepM (binSpan lo hi) = binStop lo hi ∧
    0 < binCount lo hi := by
  have hs := binStepM_pos (binSpan lo hi)
  unfold binCount binStop binStart
  set st := binStepM (binSpan lo hi)
  set a := 1000 * lo / st
  set b := (1000 * hi + st - 1) / st
  have hab : a ≤ b := Nat.div_le_div_right (by omega)
  by_cases hba : b = a
  · rw [if_pos hba]
    have hsub : (a + 1) * st - a * st = st := by
      rw [Nat.add_mul]
      omega
    rw [hsub, Nat.div_self hs, Nat.add_mul]
    omega
  · rw [if_neg hba]
    have hmul : a * st ≤ b * st := Nat.mul_le_mul_right st hab
    have hsub : b * st - a * st = (b - a) * st := by rw [Nat.sub_mul]
    rw [hsub, Nat.mul_div_cancel _ hs, Nat.sub_mul]
    omega

theorem mem_binsFor (vals : List Nat) (lo hi : Nat) (b : Nat × Nat × Nat)
    (hb : b ∈ binsFor vals lo hi) :
    ∃ i, i < binCount lo hi ∧
      b.1 = binStart lo hi + i * binStepM (binSpan lo hi) ∧
      b.2.1 = binStart lo hi + (i + 1) * binStepM (binSpan lo hi) := by
  unfold binsFor at hb
  obtain ⟨i, hi', hbe⟩ := List.mem_map.mp hb
  refine ⟨i, List.mem_range.mp hi', ?_, ?_⟩
  · rw [← hbe]
  · rw [← hbe]

theorem head?_map_range {α : Type} (f : Nat → α) (n : Nat) (hn : 0 < n) :
    ((List.range n).map f).head? = some (f 0) := by
  cases n with
  | zero => omega
  | succ k =>
    rw [List.range_succ_eq_map]
    simp

theorem getLast?_map_range {α : Type} (f : Nat → α) (n : Nat) (hn : 0 < n) :
    ((List.range n).map f).getLast? = some (f (n - 1)) := by
  cases n with
  | zero => omega
  | succ k =>
    rw [List.range_succ, List.map_append]
    simp

theorem listMinimum_eq_none (l : List Nat) : listMinimum l = none ↔ l = [] := by
  cases l <;> simp [listMinimum]

theorem listMinimum_le (l : List Nat) (m x : Nat) (hm : listMinimum l = some m)
    (hx : x ∈ l) : m ≤ x := by
  induction l generalizing m with
  | nil => cases hx
  | cons a as ih =>
    rcases List.mem_cons.mp hx with rfl | hx
    · cases h : listMinimum as with
      | none =>
        simp [listMinimum, h, Option.elim] at hm
        exact hm.ge
      | some m' =>
        simp [listMinimum, h, Option.elim] at hm
        rw [← hm]
        exact Nat.min_le_left x m'
    · cases h : listMinimum as with
      | none =>
        rw [listMinimum_eq_none] at h
        subst h
        cases hx
      | some m' =>
        have hxm := ih m' h hx
        simp [listMinimum, h, Option.elim] at hm
        rw [← hm]
        exact le_trans (Nat.min_le_right a m') hxm

theorem listMinimum_le_listMaximum (l : List Nat) (lo hi : Nat)
    (h1 : listMinimum l = some lo) (h2 : listMaximum l = some hi) : lo ≤ hi := by
  cases l with
  | nil => cases h1
  | cons x xs =>
    exact le_trans (listMinimum_le _ _ x h1 (List.mem_cons_self x xs))
      (listMaximum_le _ _ x h2 (List.mem_cons_self x xs))

theorem zip_map_filter {α β : Type} [BEq β] (l : List α) (f : α → β) (b : β) :
    ((l.zip (l.map f)).filter (fun p => p.2 == b)).map Prod.fst =
      l.filter (fun a => f a == b) := by
  induction l with
  | nil => rfl
  | cons x xs ih =>
    simp only [List.map_cons, List.zip_cons_cons, List.filter_cons]
    cases h : f x == b <;> simp [h, ih]

theorem count_map_county (l : List VehicleRecord) (c : String) :
    (l.map (fun r => r.county)).count c = l.countP (fun r => r.county == c) := by
  induction l with
  | nil => rfl
  | cons x xs ih => simp [List.count_cons, List.countP_cons, ih]

theorem countP_county_filter (rows : List VehicleRecord) (g : String → Bool) (c : String) :
    (rows.filter (fun r => g r.county)).countP (fun r => r.county == c) =
      if g c then countyCount rows c else 0 := by
  rw [List.countP_filter]
  have hcong : rows.countP (fun r => (r.county == c) && g r.county) =
      rows.countP (fun r => (r.county == c) && g c) := by
    rw [List.countP_eq_length_filter, List.countP_eq_length_filter]
    congr 1
    apply List.filter_congr
    intro r _
    by_cases hrc : r.county = c
    · rw [hrc]
    · simp [beq_eq_false_iff_ne.mpr hrc]
  rw [hcong]
  cases hg : g c
  · simp
  · simp [countyCount]

theorem adoption_range_column_ok (rows : List VehicleRecord) (labels : List (Option String))
    (hcol : adoption_range_column rows = .ok labels) :
    ∃ M, maxCountyCount rows = some M ∧ 1000 < M ∧
      labels = rows.map (fun r => cutLabel M (countyCount rows r.county)) := by
  unfold adoption_range_column at hcol
  split at hcol
  · cases hcol
  · rename_i M hmax
    by_cases hM : 1000 < M
    · rw [if_pos hM] at hcol
      cases hcol
      exact ⟨M, hmax, hM, rfl⟩
    · rw [if_neg hM] at hcol
      cases hcol

/-- Claim C1: the adoption-range bucket column attached during the county
derivation is exactly `adoption_range_column` of the full, unfiltered row
list — a computation that never consults `selectedAdoptionRange` — and the
column is identical under any two filter values: the filter changes which
counties appear in the output, never a county's assigned bucket. -/
theorem county_bucket_from_full_data (s : TableState) (r r1 r2 : String) :
    ((countyDistributionRun s r).map (fun p => p.1.adoptionRange) =
      (adoption_range_column s.rows).map (fun labels => some labels)) ∧
    ((countyDistributionRun s r1).map (fun p => p.1.adoptionRange) =
      (countyDistributionRun s r2).map (fun p => p.1.adoptionRange)) := by
  refine ⟨countyDistributionRun_adoptionRange s r, ?_⟩
  rw [countyDistributionRun_adoptionRange s r1, countyDistributionRun_adoptionRange s r2]

/-- Claim C3, amended: no derivation ever changes the loaded rows — whenever
the county derivation succeeds it returns the working table with the row list
unchanged (and the pure derivations cannot write at all).  The original
claim's "no column added" part fails: see the counterexample, the run writes
the derived `Adoption Range` column onto the working table. -/
theorem county_run_preserves_rows (s : TableState) (r : String) :
    (countyDistributionRun s r).map (fun p => p.1.rows) =
      (countyDistributionRun s r).map (fun _ => s.rows) := by
  unfold countyDistributionRun
  cases hcol : adoption_range_column s.rows with
  | error e => rfl
  | ok labels =>
    cases hcc : county_counts s.rows r with
    | error e => rfl
    | ok out => rfl

/-- Claim C3, counterexample: on a table of 1001 identical `King` rows (the
derived column absent after loading) the county derivation succeeds and the
table it returns carries the derived `Adoption Range` column — a column was
added to the working table, which the claim forbids. -/
theorem county_run_adds_column :
    (countyDistributionRun ⟨List.replicate 1001 king, none⟩ "All").map
        (fun p => p.1.adoptionRange) =
      .ok (some (List.replicate 1001 (some "1000+"))) ∧
    some (List.replicate 1001 (some ("1000+" : String))) ≠
      (none : Option (List (Option String))) := by
  have hcount : countyCount (List.replicate 1001 king) "King" = 1001 := by
    unfold countyCount
    rw [countP_replicate]
    simp [king]
  have hmap : (List.replicate 1001 king).map
      (fun r => countyCount (List.replicate 1001 king) r.county) =
      List.replicate 1001 1001 := by
    rw [List.map_replicate]
    show List.replicate 1001 (countyCount (List.replicate 1001 king) "King") = _
    rw [hcount]
  have hmax : maxCountyCount (List.replicate 1001 king) = some 1001 := by
    unfold maxCountyCount
    rw [hmap]
    have h := listMaximum_replicate 1000 1001
    norm_num at h
    exact h
  have hcol : adoption_range_column (List.replicate 1001 king) =
      .ok (List.replicate 1001 (some "1000+")) := by
    have hstep : adoption_range_column (List.replicate 1001 king) =
        if 1000 < 1001 then
          .ok ((List.replicate 1001 king).map
            (fun r => cutLabel 1001 (countyCount (List.replicate 1001 king) r.county)))
        else .error "bins must increase monotonically" := by
      unfold adoption_range_column
      rw [hmax]
    rw [hstep, if_pos (by norm_num)]
    refine congrArg Except.ok ?_
    rw [List.map_replicate]
    show List.replicate 1001 (cutLabel 1001 (countyCount (List.replicate 1001 king) "King")) = _
    rw [hcount]
    exact congrArg (List.replicate 1001) rfl
  constructor
  · refine (countyDistributionRun_adoptionRange ⟨List.replicate 1001 king, none⟩ "All").trans ?_
    show (adoption_range_column (List.replicate 1001 king)).map (fun labels => some labels) = _
    rw [hcol]
    rfl
  · exact fun h => Option.noConfusion h

/-- Claim C7: every derivation is a pure function of the table and selection,
so a second invocation on identical inputs returns the identical sequence; in
particular running the county derivation again from the working table the
first run produced yields exactly the same table state and output (the column
write is recomputed from the unchanged rows). -/
theorem pipeline_idempotent (data : List VehicleRecord) (m t r : String) (s : TableState) :
    ev_count_by_year data m t = ev_count_by_year data m t ∧
    rangeHistogram data t = rangeHistogram data t ∧
    avg_range_by_make data = avg_range_by_make data ∧
    (countyDistributionRun s r).bind (fun p => countyDistributionRun p.1 r) =
      countyDistributionRun s r := by
  refine ⟨rfl, rfl, rfl, ?_⟩
  cases hcol : adoption_range_column s.rows with
  | error e =>
    unfold countyDistributionRun
    rw [hcol]
    rfl
  | ok labels =>
    cases hcc : county_counts s.rows r with
    | error e =>
      unfold countyDistributionRun
      rw [hcol, hcc]
      rfl
    | ok out =>
      have hrun1 : countyDistributionRun s r = .ok (⟨s.rows, some labels⟩, out) := by
        unfold countyDistributionRun
        rw [hcol, hcc]
        rfl
      rw [hrun1]
      show countyDistributionRun (⟨s.rows, some labels⟩ : TableState) r =
        .ok ((⟨s.rows, some labels⟩ : TableState), out)
      show (adoption_range_column s.rows).bind
        (fun labels2 => (county_counts s.rows r).map
          (fun out2 => ((⟨s.rows, some labels2⟩ : TableState), out2))) =
        .ok ((⟨s.rows, some labels⟩ : TableState), out)
      rw [hcol, hcc]
      rfl

/-- Claim C10: the bucket filter of the county derivation keeps either all of
a county's rows or none of them (rows of one county share one bucket), and
consequently, whenever the derivation succeeds, every returned
(county, count) pair carries that county's row count in the full unfiltered
dataset, under any bucket selection. -/
theorem county_filter_keeps_counties_whole (rows : List VehicleRecord) (sel : String) :
    ((filtered_county_data rows sel).map (fun fcd =>
        rows.all (fun row =>
          (fcd.countP (fun x => x.county == row.county) == countyCount rows row.county) ||
          (fcd.countP (fun x => x.county == row.county) == 0))) =
      (filtered_county_data rows sel).map (fun _ => true)) ∧
    ((county_counts rows sel).map (fun out =>
        out.all (fun cn => cn.2 == countyCount rows cn.1)) =
      (county_counts rows sel).map (fun _ => true)) := by
  cases hcol : adoption_range_column rows with
  | error e =>
    unfold county_counts filtered_county_data
    rw [hcol]
    exact ⟨rfl, rfl⟩
  | ok labels =>
    obtain ⟨M, hmax, hM, hlab⟩ := adoption_range_column_ok rows labels hcol
    set g : String → Bool :=
      fun c => if sel = "All" then true else (cutLabel M (countyCount rows c) == some sel)
      with hg
    have hfcd : filtered_county_data rows sel = .ok (rows.filter (fun r => g r.county)) := by
      unfold filtered_county_data
      rw [hcol]
      show Except.ok _ = _
      refine congrArg Except.ok ?_
      show (if sel = "All" then rows
        else ((rows.zip labels).filter (fun p => p.2 == some sel)).map Prod.fst) =
        rows.filter (fun r => g r.county)
      by_cases hsel : sel = "All"
      · rw [if_pos hsel, hg]
        simp [hsel]
      · rw [if_neg hsel, hlab, zip_map_filter rows _ (some sel), hg]
        apply List.filter_congr
        intro r _
        simp [hsel]
    have hcc : county_counts rows sel =
        .ok (value_counts ((rows.filter (fun r => g r.county)).map (fun r => r.county))) := by
      unfold county_counts
      rw [hfcd]
      rfl
    constructor
    · rw [hfcd]
      show Except.ok _ = Except.ok _
      refine congrArg Except.ok ?_
      rw [List.all_eq_true]
      intro row _
      have hcp := countP_county_filter rows g row.county
      rw [hcp]
      cases hgc : g row.county <;> simp [hgc]
    · rw [hcc]
      show Except.ok _ = Except.ok _
      refine congrArg Except.ok ?_
      rw [List.all_eq_true]
      intro cn hcn
      obtain ⟨hmem, hcount⟩ := mem_value_counts _ cn hcn
      rw [count_map_county] at hcount
      have hcp := countP_county_filter rows g cn.1
      rw [hcp] at hcount
      obtain ⟨r0, hr0mem, hr0eq⟩ := List.mem_map.mp hmem
      have hgc : g cn.1 = true := by
        rw [← hr0eq]
        exact (List.mem_filter.mp hr0mem).2
      rw [if_pos hgc] at hcount
      rw [hcount]
      simp

/-- Claim C2, amended: on a dataset with zero records the trends, histogram
and top-manufacturer derivations return empty sequences; the county
derivation instead raises, because `pd.cut` receives the bin list
`[0, 50, 200, 500, 1000, NaN]` (the max county count of an empty table is
`NaN`) and rejects it as not strictly increasing. -/
theorem empty_dataset_behavior (m t r : String) :
    ev_count_by_year [] m t = [] ∧
    rangeHistogram [] t = [] ∧
    avg_range_by_make ([] : List VehicleRecord) = [] ∧
    county_counts ([] : List VehicleRecord) r = .error "bins must increase monotonically" := by
  refine ⟨?_, ?_, rfl, rfl⟩
  · unfold ev_count_by_year filtered_data
    simp [sortedDistinct]
  · unfold rangeHistogram range_filtered_data
    simp [listMinimum]

/-- Claim C2, counterexample: on the empty dataset the county derivation
raises (`pd.cut`'s bin list is not strictly increasing when the top edge is
`NaN`) rather than returning the empty sequence the claim promises. -/
theorem empty_dataset_county_raises :
    county_counts ([] : List VehicleRecord) "All" = .error "bins must increase monotonically" ∧
    county_counts ([] : List VehicleRecord) "All" ≠ .ok [] :=
  ⟨rfl, fun h => Except.noConfusion h⟩

/-- Bucket assignment exactly as the specification words it: the county's
record count against the fixed constants 50, 200, 500, 1000 with labels
0-50 / 51-200 / 201-500 / 501-1000 / 1000+, and no data-derived edge.  Kept
separate from `cutLabel` (the code's version) to compare the two. -/
def specBucket (c : Nat) : String :=
  if c ≤ 50 then "0-50"
  else if c ≤ 200 then "51-200"
  else if c ≤ 500 then "201-500"
  else if c ≤ 1000 then "501-1000"
  else "1000+"

/-- Claim C6, amended: whenever the labelling step succeeds — which requires
the data-derived top bin edge (the max county count) to exceed 1000 — every
row's assigned bucket agrees with the fixed-boundary rule applied to its
county's record count; but the top edge is taken from the data, and when the
max county count is at most 1000 the code raises instead of bucketing (see
the counterexample). -/
theorem adoption_bucket_matches_fixed_cutpoints (rows : List VehicleRecord) :
    adoption_range_column rows =
      (adoption_range_column rows).map
        (fun _ => rows.map (fun r => some (specBucket (countyCount rows r.county)))) := by
  cases hcol : adoption_range_column rows with
  | error e => rfl
  | ok labels =>
    obtain ⟨M, hmax, hM, hlab⟩ := adoption_range_column_ok rows labels hcol
    show Except.ok labels = Except.ok _
    refine congrArg Except.ok ?_
    rw [hlab]
    apply List.map_congr_left
    intro r hr
    have hle : countyCount rows r.county ≤ M := by
      apply listMaximum_le _ M _ hmax
      exact List.mem_map.mpr ⟨r, hr, rfl⟩
    unfold cutLabel specBucket
    split_ifs <;> rfl

/-- Claim C6, counterexample: on a one-row dataset the fixed-boundary rule of
the claim would put county `King` (count 1) into bucket `0-50`, but the
code's top bin edge is the data-derived max county count 1, so `pd.cut`
raises and no bucket is assigned at all — the boundaries are not fixed
constants independent of the data. -/
theorem fixed_boundary_bucket_not_assigned :
    adoption_range_column [king] = .error "bins must increase monotonically" ∧
    adoption_range_column [king] ≠ .ok [some "0-50"] :=
  ⟨rfl, fun h => Except.noConfusion h⟩

/-- Claim C8, amended: a make or type selection matching no row yields the
empty sequence from the trends and histogram derivations, and a bucket
selection matching no labelled row yields the empty sequence from the county
derivation whenever its labelling step succeeds; but when the labelling step
fails (max county count ≤ 1000, e.g. every small dataset) the county
derivation raises regardless of the selected value (see the
counterexample). -/
theorem unmatched_filter_yields_empty (data : List VehicleRecord) (m t sel : String) :
    (m ≠ "All" → (∀ r ∈ data, r.make ≠ m) → ev_count_by_year data m t = []) ∧
    (t ≠ "All" → (∀ r ∈ data, r.vehicleType ≠ t) →
      ev_count_by_year data m t = [] ∧ rangeHistogram data t = []) ∧
    (sel ≠ "All" →
      (∀ labels, adoption_range_column data = .ok labels → some sel ∉ labels) →
      county_counts data sel = (adoption_range_column data).map (fun _ => [])) := by
  refine ⟨?_, ?_, ?_⟩
  · intro hm hnone
    have hfd : filtered_data data m t = [] := by
      rw [filtered_data_eq_filter]
      apply List.filter_eq_nil_iff.mpr
      intro r hr
      simp [trendsPred, beq_eq_false_iff_ne.mpr hm, beq_eq_false_iff_ne.mpr (hnone r hr)]
    unfold ev_count_by_year
    rw [hfd]
    rfl
  · intro ht hnone
    have hfd : filtered_data data m t = [] := by
      rw [filtered_data_eq_filter]
      apply List.filter_eq_nil_iff.mpr
      intro r hr
      simp [trendsPred, beq_eq_false_iff_ne.mpr ht, beq_eq_false_iff_ne.mpr (hnone r hr)]
    constructor
    · unfold ev_count_by_year
      rw [hfd]
      rfl
    · have hrf : range_filtered_data data t = [] := by
        unfold range_filtered_data
        rw [if_pos ht]
        apply List.filter_eq_nil_iff.mpr
        intro r hr
        simp [beq_eq_false_iff_ne.mpr (hnone r hr)]
      unfold rangeHistogram
      rw [hrf]
      rfl
  · intro hsel hnot
    cases hcol : adoption_range_column data with
    | error e =>
      unfold county_counts filtered_county_data
      rw [hcol]
      rfl
    | ok labels =>
      have hfcd : ((data.zip labels).filter (fun p => p.2 == some sel)) = [] := by
        apply List.filter_eq_nil_iff.mpr
        intro p hp
        have hmem := (List.of_mem_zip hp).2
        intro hcontra
        rw [beq_iff_eq] at hcontra
        exact hnot labels hcol (hcontra ▸ hmem)
      unfold county_counts filtered_county_data
      rw [hcol]
      show Except.ok _ = Except.ok _
      refine congrArg Except.ok ?_
      show value_counts ((if sel = "All" then data
        else ((data.zip labels).filter (fun p => p.2 == some sel)).map Prod.fst).map
          (fun r => r.county)) = []
      rw [if_neg hsel, hfcd]
      rfl

/-- Claim C8, witness: in a one-`King`-row dataset, the absent make `NISSAN`
and absent type `PHEV` give empty trends and histogram sequences, and the
county conclusion holds at the absent bucket value `1000+`. -/
theorem unmatched_filter_yields_empty_witness :
    ev_count_by_year [king] "NISSAN" "PHEV" = [] ∧
    rangeHistogram [king] "PHEV" = [] ∧
    county_counts [king] "1000+" = (adoption_range_column [king]).map (fun _ => []) := by
  have h := unmatched_filter_yields_empty [king] "NISSAN" "PHEV" "1000+"
  have h2 := h.2.1 (by decide) (by decide)
  refine ⟨h2.1, h2.2, ?_⟩
  exact h.2.2 (by decide) (fun labels hcol => Except.noConfusion hcol)

/-- Claim C8, counterexample: for the one-row dataset and the bucket value
`1000+` — a value matching no row — the county derivation raises
(`pd.cut`'s bin list `[0,50,200,500,1000,1]` is not strictly increasing)
instead of returning the empty sequence the claim promises for every
dataset. -/
theorem unmatched_bucket_value_raises :
    county_counts [king] "1000+" = .error "bins must increase monotonically" ∧
    county_counts [king] "1000+" ≠ .ok [] :=
  ⟨rfl, fun h => Except.noConfusion h⟩

theorem ev_count_by_year_eq (data : List VehicleRecord) (m t : String) :
    ev_count_by_year data m t =
      (sortedDistinct ((filtered_data data m t).map (fun r => r.modelYear))).map
        (fun y => (y, ((filtered_data data m t).map (fun r => r.modelYear)).count y)) := rfl

theorem trendsPred_eq_true (m t : String) (r : VehicleRecord) :
    trendsPred m t r = true ↔
      (m = "All" ∨ r.make = m) ∧ (t = "All" ∨ r.vehicleType = t) := by
  unfold trendsPred
  simp

/-- Claim C5: `trendsByYear` filters rows by equality on the selected make and
vehicle type (each skipped on "All"), groups the remaining rows by model year
with their counts, and the years of the returned sequence are strictly
increasing — in particular no year appears twice. -/
theorem trends_by_year_spec (data : List VehicleRecord) (m t : String) :
    ((ev_count_by_year data m t).map Prod.fst).Sorted (· < ·) ∧
    (∀ y : Int, y ∈ (ev_count_by_year data m t).map Prod.fst ↔
      ∃ r ∈ data, (m = "All" ∨ r.make = m) ∧ (t = "All" ∨ r.vehicleType = t) ∧
        r.modelYear = y) ∧
    ∀ p ∈ ev_count_by_year data m t,
      p.2 = data.countP (fun r => (r.modelYear == p.1) && trendsPred m t r) ∧ 0 < p.2 := by
  have hfst : (ev_count_by_year data m t).map Prod.fst =
      sortedDistinct ((filtered_data data m t).map (fun r => r.modelYear)) := by
    rw [ev_count_by_year_eq, List.map_map]
    exact List.map_id' _
  refine ⟨?_, ?_, ?_⟩
  · rw [hfst]
    exact sortedDistinct_sorted _
  · intro y
    rw [hfst, mem_sortedDistinct, List.mem_map, filtered_data_eq_filter]
    constructor
    · rintro ⟨r, hr, hy⟩
      have hrf := List.mem_filter.mp hr
      have hps := (trendsPred_eq_true m t r).mp hrf.2
      exact ⟨r, hrf.1, hps.1, hps.2, hy⟩
    · rintro ⟨r, hr, h1, h2, hy⟩
      exact ⟨r, List.mem_filter.mpr ⟨hr, (trendsPred_eq_true m t r).mpr ⟨h1, h2⟩⟩, hy⟩
  · intro p hp
    rw [ev_count_by_year_eq] at hp
    obtain ⟨y, hy, hpe⟩ := List.mem_map.mp hp
    have hy2 : y ∈ (filtered_data data m t).map (fun r => r.modelYear) :=
      (mem_sortedDistinct _ y).mp hy
    subst hpe
    constructor
    · show ((filtered_data data m t).map (fun r => r.modelYear)).count y =
        data.countP (fun r => (r.modelYear == y) && trendsPred m t r)
      rw [List.count_eq_countP, List.countP_map, filtered_data_eq_filter, List.countP_filter]
      rfl
    · show 0 < ((filtered_data data m t).map (fun r => r.modelYear)).count y
      exact List.count_pos_iff.mpr hy2

/-- Concrete three-row dataset from the specification's worked example:
make `Tesla` with model years 2018, 2018 and 2019. -/
def teslaData : List VehicleRecord :=
  [⟨"Tesla", 2018, "BEV", 0, "King"⟩, ⟨"Tesla", 2018, "BEV", 0, "King"⟩,
   ⟨"Tesla", 2019, "BEV", 0, "King"⟩]

/-- Claim C5, witness: on the specification's example dataset the year
sequence for make `Tesla` is strictly increasing and the entry `(2018, 2)`
carries the filtered group count. -/
theorem trends_by_year_witness :
    ((ev_count_by_year teslaData "Tesla" "All").map Prod.fst).Sorted (· < ·) ∧
    ((2018 : Int), (2 : Nat)).2 =
      teslaData.countP (fun r =>
        (r.modelYear == ((2018 : Int), (2 : Nat)).1) && trendsPred "Tesla" "All" r) := by
  have h := trends_by_year_spec teslaData "Tesla" "All"
  exact ⟨h.1, (h.2.2 (2018, 2) (by decide)).1⟩

/-- Claim C4: `topManufacturersByRange` groups all records (no filter) by
make, attaches the arithmetic mean of `electricRange` per make, returns at
most ten entries, and the result is sorted non-increasing by mean range. -/
theorem top_manufacturers_spec (data : List VehicleRecord) :
    (avg_range_by_make data).length ≤ 10 ∧
    (avg_range_by_make data).Sorted (fun a b => b.2 ≤ a.2) ∧
    ∀ p ∈ avg_range_by_make data,
      (∃ r ∈ data, r.make = p.1) ∧
      (data.filter (fun r => r.make == p.1)).length ≠ 0 ∧
      p.2 * ((data.filter (fun r => r.make == p.1)).length : ℚ) =
        ((data.filter (fun r => r.make == p.1)).map (fun r => (r.electricRange : ℚ))).sum := by
  refine ⟨List.length_take_le _ _, ?_, ?_⟩
  · exact List.Pairwise.sublist (List.take_sublist _ _) (List.sorted_insertionSort _ _)
  · intro p hp
    have hp1 : p ∈ (data.map (fun r => r.make)).dedup.map
        (fun mk => (mk, meanRange data mk)) :=
      (List.perm_insertionSort _ _).mem_iff.mp (List.mem_of_mem_take hp)
    obtain ⟨mk, hmk, hpe⟩ := List.mem_map.mp hp1
    have hmk2 : mk ∈ data.map (fun r => r.make) := List.mem_dedup.mp hmk
    obtain ⟨r0, hr0, hr0e⟩ := List.mem_map.mp hmk2
    subst hpe
    have hmem0 : r0 ∈ data.filter (fun r => r.make == mk) :=
      List.mem_filter.mpr ⟨hr0, by simp [hr0e]⟩
    have hlen : (data.filter (fun r => r.make == mk)).length ≠ 0 := by
      intro hzero
      rw [List.length_eq_zero] at hzero
      rw [hzero] at hmem0
      cases hmem0
    refine ⟨⟨r0, hr0, hr0e⟩, hlen, ?_⟩
    show meanRange data mk * ((data.filter (fun r => r.make == mk)).length : ℚ) =
      ((data.filter (fun r => r.make == mk)).map (fun r => (r.electricRange : ℚ))).sum
    exact div_mul_cancel₀ _ (Nat.cast_ne_zero.mpr hlen)

/-- Claim C4, witness: on the one-row dataset `[king]` the derivation keeps at
most ten entries and the `TESLA` entry carries the arithmetic mean of its
rows' ranges. -/
theorem top_manufacturers_witness :
    (avg_range_by_make [king]).length ≤ 10 ∧
    (∃ r ∈ [king], r.make = "TESLA") ∧
    ([king].filter (fun r => r.make == "TESLA")).length ≠ 0 ∧
    meanRange [king] "TESLA" * (([king].filter (fun r => r.make == "TESLA")).length : ℚ) =
      (([king].filter (fun r => r.make == "TESLA")).map (fun r => (r.electricRange : ℚ))).sum := by
  have h := top_manufacturers_spec [king]
  have hmem : ("TESLA", meanRange [king] "TESLA") ∈ avg_range_by_make [king] :=
    List.Mem.head _
  obtain ⟨hex, hlen, heq⟩ := h.2.2 _ hmem
  exact ⟨h.1, hex, hlen, heq⟩

/-- Concrete row with electric range 337 miles (the sample's observed max). -/
def tesla337 : VehicleRecord := ⟨"TESLA", 2020, "BEV", 337, "King"⟩

theorem rangeHistogram_eq (rows : List VehicleRecord) (t : String) :
    rangeHistogram rows t =
      match listMinimum ((range_filtered_data rows t).map (fun r => r.electricRange)),
        listMaximum ((range_filtered_data rows t).map (fun r => r.electricRange)) with
      | some lo, some hi =>
        binsFor ((range_filtered_data rows t).map (fun r => r.electricRange)) lo hi
      | _, _ => [] := rfl

theorem mem_rangeHistogram (rows : List VehicleRecord) (t : String) (b : Nat × Nat × Nat)
    (hb : b ∈ rangeHistogram rows t) :
    ∃ lo hi,
      listMinimum ((range_filtered_data rows t).map (fun r => r.electricRange)) = some lo ∧
      listMaximum ((range_filtered_data rows t).map (fun r => r.electricRange)) = some hi ∧
      b ∈ binsFor ((range_filtered_data rows t).map (fun r => r.electricRange)) lo hi := by
  rw [rangeHistogram_eq] at hb
  split at hb
  · rename_i lo hi hmin hmax
    exact ⟨lo, hi, hmin, hmax, hb⟩
  · cases hb

/-- Claim C9, amended: the histogram filters rows by vehicle type and by
nothing else (a non-"All" selection gives the same bins as pre-filtering the
rows), and the bins the charting stack produces are equal-width and cover
every observed value; but `maxbins = 20` only bounds the nice-step bin
choice, so the bin count need not be exactly 20 and the outer bin edges are
nice step multiples rather than the observed min and max (see the
counterexample). -/
theorem histogram_filter_and_equal_width_bins (rows : List VehicleRecord) (t : String) :
    (t ≠ "All" →
      rangeHistogram rows t =
        rangeHistogram (rows.filter (fun r => r.vehicleType == t)) "All") ∧
    (∀ b ∈ rangeHistogram rows t, ∀ b' ∈ rangeHistogram rows t,
      b.2.1 - b.1 = b'.2.1 - b'.1) ∧
    (∀ v ∈ (range_filtered_data rows t).map (fun r => r.electricRange),
      (∀ b0, (rangeHistogram rows t).head? = some b0 → b0.1 ≤ 1000 * v) ∧
      (∀ bl, (rangeHistogram rows t).getLast? = some bl → 1000 * v ≤ bl.2.1)) := by
  refine ⟨?_, ?_, ?_⟩
  · intro ht
    unfold rangeHistogram
    have h1 : range_filtered_data rows t = rows.filter (fun r => r.vehicleType == t) := by
      unfold range_filtered_data
      rw [if_pos ht]
    have h2 : range_filtered_data (rows.filter (fun r => r.vehicleType == t)) "All" =
        rows.filter (fun r => r.vehicleType == t) := by
      unfold range_filtered_data
      rw [if_neg (by simp)]
    rw [h1, h2]
  · intro b hb b' hb'
    obtain ⟨lo, hi, hmin, hmax, hbb⟩ := mem_rangeHistogram rows t b hb
    obtain ⟨lo2, hi2, hmin2, hmax2, hbb'⟩ := mem_rangeHistogram rows t b' hb'
    injection hmin.symm.trans hmin2 with hlo
    injection hmax.symm.trans hmax2 with hhi
    subst hlo
    subst hhi
    obtain ⟨i, hi1, hb1, hb2⟩ := mem_binsFor _ _ _ b hbb
    obtain ⟨j, hj1, hb3, hb4⟩ := mem_binsFor _ _ _ b' hbb'
    rw [hb1, hb2, hb3, hb4, add_one_mul, add_one_mul]
    omega
  · intro v hv
    have hne : (range_filtered_data rows t).map (fun r => r.electricRange) ≠ [] :=
      List.ne_nil_of_mem hv
    cases hminc : listMinimum ((range_filtered_data rows t).map (fun r => r.electricRange)) with
    | none => exact absurd ((listMinimum_eq_none _).mp hminc) hne
    | some lo =>
      cases hmaxc : listMaximum ((range_filtered_data rows t).map (fun r => r.electricRange)) with
      | none => exact absurd ((listMaximum_eq_none _).mp hmaxc) hne
      | some hi =>
        have hhist : rangeHistogram rows t =
            binsFor ((range_filtered_data rows t).map (fun r => r.electricRange)) lo hi := by
          rw [rangeHistogram_eq, hminc, hmaxc]
        have hlohi : lo ≤ hi := listMinimum_le_listMaximum _ lo hi hminc hmaxc
        obtain ⟨hsum, hpos⟩ := binCount_spec lo hi hlohi
        have hlov : lo ≤ v := listMinimum_le _ lo v hminc hv
        have hvhi : v ≤ hi := listMaximum_le _ hi v hmaxc hv
        constructor
        · intro b0 hb0
          rw [hhist] at hb0
          unfold binsFor at hb0
          rw [head?_map_range _ _ hpos] at hb0
          injection hb0 with hb0e
          subst hb0e
          show binStart lo hi + 0 * binStepM (binSpan lo hi) ≤ 1000 * v
          have h5 := binStart_le lo hi
          have h6 : 1000 * lo ≤ 1000 * v := by omega
          omega
        · intro bl hbl
          rw [hhist] at hbl
          unfold binsFor at hbl
          rw [getLast?_map_range _ _ hpos] at hbl
          injection hbl with hble
          subst hble
          show 1000 * v ≤
            binStart lo hi + (binCount lo hi - 1 + 1) * binStepM (binSpan lo hi)
          have hn1 : binCount lo hi - 1 + 1 = binCount lo hi := by omega
          rw [hn1]
          have h3 := le_binStop lo hi
          have h4 : 1000 * v ≤ 1000 * hi := by omega
          omega

/-- Claim C9, witness: selecting type `PHEV` keeps only the zero-range row;
the library produces the single bin [0, 0.05) (thousandths: [0, 50)) with one
value, demonstrating the filter equation, equal widths and coverage. -/
theorem histogram_filter_and_equal_width_bins_witness :
    rangeHistogram [tesla337, pierce] "PHEV" =
      rangeHistogram ([tesla337, pierce].filter (fun r => r.vehicleType == "PHEV")) "All" ∧
    ((0, 50, 1) : Nat × Nat × Nat).2.1 - ((0, 50, 1) : Nat × Nat × Nat).1 =
      ((0, 50, 1) : Nat × Nat × Nat).2.1 - ((0, 50, 1) : Nat × Nat × Nat).1 ∧
    (((0, 50, 1) : Nat × Nat × Nat)).1 ≤ 1000 * 0 := by
  have h := histogram_filter_and_equal_width_bins [tesla337, pierce] "PHEV"
  refine ⟨h.1 (by decide), ?_, ?_⟩
  · exact h.2.1 (0, 50, 1) (by decide) (0, 50, 1) (by decide)
  · exact (h.2.2 0 (by decide)).1 (0, 50, 1) (by decide)

/-- Claim C9, counterexample: for observed extent [0, 337] miles the
`maxbins = 20` binning picks the nice step 20 miles and produces 17 bins over
[0, 340] (edges in thousandths of a mile) — neither exactly 20 bins, nor a
final edge at the observed maximum 337. -/
theorem histogram_not_exactly_twenty_bins :
    (rangeHistogram [tesla337, pierce] "All").length = 17 ∧
    (rangeHistogram [tesla337, pierce] "All").length ≠ 20 ∧
    ((rangeHistogram [tesla337, pierce] "All").getLast?.map (fun b => b.2.1)) =
      some 340000 ∧
    (340000 : Nat) ≠ 1000 * 337 := by
  refine ⟨by decide, by decide, by decide, by norm_num⟩
